import Mathlib

/-!
Shallow embedding of the Trello-style project-management backend
(`src/routes/board.js` plus the Mongoose models) and verification of the
specified properties of its core: the access predicate, the ordering
operations (create list / create card / move card), the invitation flow
and the rule-based recommendation engine.

Identifiers (Mongo ObjectIds, compared in the source via `toString()`
value equality) are modelled as natural numbers.  Calendar instants
(JS `Date` values, compared by their millisecond epoch value) are
modelled as integers (milliseconds).  Each route handler is modelled as
a pure function from an explicit store (the four Mongo collections) to
an `Except` value: the `.error` side carries the HTTP status and message
the handler responds with (a thrown exception caught by the handler's
`catch` block is status 500, "Server error").
-/

namespace Trello

/-- Card priority enumeration, from the Card schema:
`enum: ['Critical', 'High', 'Medium', 'Low']`. -/
inductive Priority where
  | critical
  | high
  | medium
  | low
deriving DecidableEq, Repr

/-- Card status enumeration, from the Card schema:
`enum: ['Backlog', 'Todo', 'In Progress', 'Review', 'Done', 'Blocked']`. -/
inductive Status where
  | backlog
  | todo
  | inProgress
  | review
  | done
  | blocked
deriving DecidableEq, Repr

/-- The string form of a priority, as stored in Mongo and interpolated
into advisory reasons. -/
def Priority.str : Priority → String
  | .critical => "Critical"
  | .high => "High"
  | .medium => "Medium"
  | .low => "Low"

/-- Advisory severity: the engine only ever emits the strings
`'high'`, `'medium'`, `'low'`. -/
inductive Severity where
  | high
  | medium
  | low
deriving DecidableEq, Repr

/-- Numeric rank of a severity, from the sort comparator in
`getRecommendations`: `const severityOrder = { high: 3, medium: 2, low: 1 }`. -/
def Severity.score : Severity → Nat
  | .high => 3
  | .medium => 2
  | .low => 1

/-- A card document (Card schema).  `list` is the id of the owning list,
`dueDate` the optional due instant in epoch milliseconds. -/
structure Card where
  id : Nat
  title : String
  description : String := ""
  list : Nat
  position : Int := 0
  dueDate : Option Int := none
  priority : Priority := .low
  status : Status := .todo
  createdBy : Nat
deriving DecidableEq, Repr

/-- A list document (List model; fields as used by `board.js`:
name, owning board id, position, card id references). -/
structure ListDoc where
  id : Nat
  name : String
  board : Nat
  position : Int := 0
  cards : List Nat := []
deriving DecidableEq, Repr

/-- A board document (Board schema). -/
structure BoardDoc where
  id : Nat
  name : String
  description : String := ""
  owner : Nat
  members : List Nat := []
  lists : List Nat := []
  isPublic : Bool := false
deriving DecidableEq, Repr

/-- A user document (User schema; `boards` is the association pushed by
the invite handler). -/
structure UserDoc where
  id : Nat
  name : String
  email : String
  boards : List Nat := []
deriving DecidableEq, Repr

/-- The persistent state: the four Mongo collections. -/
structure Store where
  users : List UserDoc := []
  boards : List BoardDoc := []
  lists : List ListDoc := []
  cards : List Card := []
deriving DecidableEq, Repr

/-- A list as the recommendation route sees it after
`.populate({ path: 'lists', populate: { path: 'cards' } })`:
card references replaced by the card documents. -/
structure PopulatedList where
  id : Nat
  name : String
  cards : List Card
deriving DecidableEq, Repr

/-- A board as the recommendation route sees it after population. -/
structure PopulatedBoard where
  id : Nat
  owner : Nat
  members : List Nat := []
  lists : List PopulatedList
deriving DecidableEq, Repr

/-- An error response: HTTP status code and message, exactly as sent by
the handlers in `board.js`. -/
structure ApiErr where
  status : Nat
  message : String
deriving DecidableEq, Repr

/-- The access check repeated in every handler:
access is denied unless `board.owner.toString() === req.user.id` or
`board.members.some((m) => m._id.toString() === req.user.id)`. -/
def canAccess (board : BoardDoc) (userId : Nat) : Bool :=
  board.owner == userId || board.members.any (fun m => m == userId)

/-- Whether `needle` occurs as a contiguous run inside `hay`. -/
def charsInclude (needle : List Char) : List Char → Bool
  | [] => needle.isEmpty
  | c :: rest => needle.isPrefixOf (c :: rest) || charsInclude needle rest

/-- `hay.toLowerCase().includes(needle)` for a needle that is already
lower-case, as used on list names by the recommendation rules. -/
def strIncludes (hay needle : String) : Bool :=
  charsInclude needle.data (hay.data.map Char.toLower)

/-- `l.name.toLowerCase().includes(needle)`. -/
def nameIncludes (l : PopulatedList) (needle : String) : Bool :=
  strIncludes l.name needle

/-- `Math.ceil((dueDate - now) / (1000 * 60 * 60 * 24))`: the exact
ceiling of the millisecond difference divided by one day. -/
def daysUntilDue (due now : Int) : Int :=
  -((now - due).ediv 86400000)

/-- One recommendation record as pushed by the engine. -/
structure Advisory where
  cardId : Nat
  cardTitle : String
  type : String
  reason : String
  severity : Severity
  action : String
deriving DecidableEq, Repr

/-- Whether a populated list contains the card (the
`l.cards.some((c) => c._id.toString() === card._id.toString())` test). -/
def listHasCard (l : PopulatedList) (card : Card) : Bool :=
  l.cards.any (fun c => c.id == card.id)

/-- Priority rule 1: a `Critical` card, when a list whose name contains
"in progress" exists and that (first such) list does not contain the
card, yields a `critical_priority` advisory. -/
def criticalPriorityAdvisories (board : PopulatedBoard) (card : Card) : List Advisory :=
  if card.priority = Priority.critical then
    match board.lists.find? (fun l => nameIncludes l "in progress") with
    | some criticalList =>
      if listHasCard criticalList card then
        []
      else
        [{ cardId := card.id
           cardTitle := card.title
           type := "critical_priority"
           reason := "Critical priority task should be in progress immediately"
           severity := Severity.high
           action := "Move to \"In Progress\" list" }]
    | none => []
  else
    []

/-- Priority rule 2: a `High` card sitting in the first list whose name
contains "todo" or "backlog" yields a `high_priority_waiting` advisory. -/
def highPriorityAdvisories (board : PopulatedBoard) (card : Card) : List Advisory :=
  if card.priority = Priority.high then
    match board.lists.find? (fun l => nameIncludes l "todo" || nameIncludes l "backlog") with
    | some todoList =>
      if listHasCard todoList card then
        [{ cardId := card.id
           cardTitle := card.title
           type := "high_priority_waiting"
           reason := "High priority task is waiting in backlog"
           severity := Severity.medium
           action := "Consider moving to \"In Progress\" if resources allow" }]
      else
        []
    | none => []
  else
    []

/-- The advisories a single card contributes to the `priority` group. -/
def priorityAdvisories (board : PopulatedBoard) (card : Card) : List Advisory :=
  criticalPriorityAdvisories board card ++ highPriorityAdvisories board card

/-- The advisories a single card contributes to the `dueDate` group:
the `if (card.dueDate) { if/else-if chain } else { no-due-date rule }`. -/
def dueDateAdvisories (now : Int) (card : Card) : List Advisory :=
  match card.dueDate with
  | some due =>
    let d := daysUntilDue due now
    if d < 0 then
      if card.status = Status.done then
        []
      else
        [{ cardId := card.id
           cardTitle := card.title
           type := "overdue"
           reason := "Task was due " ++ toString d.natAbs ++ " day(s) ago but is not completed"
           severity := if card.priority = Priority.critical then Severity.high else Severity.medium
           action :=
             if card.status = Status.blocked then
               "Resolve blocking issues and complete task"
             else
               "Complete task immediately" }]
    else if d ≤ 2 then
      if card.status = Status.done ∨ card.status = Status.inProgress then
        []
      else
        [{ cardId := card.id
           cardTitle := card.title
           type := "due_soon"
           reason := "Task is due in " ++ toString d ++ " day(s) but not yet in progress"
           severity := if card.priority = Priority.critical then Severity.high else Severity.medium
           action := "Move to \"In Progress\" and prioritize completion" }]
    else if d ≤ 7 ∧ card.status = Status.backlog then
      [{ cardId := card.id
         cardTitle := card.title
         type := "upcoming_deadline"
         reason := "Task due in " ++ toString d ++ " days is still in backlog"
         severity := Severity.low
         action := "Consider starting work or adjusting timeline" }]
    else
      []
  | none =>
    if card.priority = Priority.critical ∨ card.priority = Priority.high then
      [{ cardId := card.id
         cardTitle := card.title
         type := "no_due_date_high_priority"
         reason := card.priority.str ++ " priority task has no due date"
         severity := if card.priority = Priority.critical then Severity.medium else Severity.low
         action := "Set a realistic due date for proper planning" }]
    else
      []

/-- The advisories a single card contributes to the `status` group, in
push order: the in-progress due-date pair, then `blocked_task`, then
`critical_in_todo`. -/
def statusAdvisories (now : Int) (card : Card) : List Advisory :=
  (if card.status = Status.inProgress then
    match card.dueDate with
    | some due =>
      let d := daysUntilDue due now
      if d < 0 then
        [{ cardId := card.id
           cardTitle := card.title
           type := "in_progress_overdue"
           reason := "Task is in progress but past due date"
           severity := Severity.high
           action := "Complete immediately or escalate" }]
      else if d ≤ 1 then
        [{ cardId := card.id
           cardTitle := card.title
           type := "in_progress_due_soon"
           reason := "In progress task due in " ++ toString d ++ " day(s)"
           severity := Severity.medium
           action := "Focus on completing this task" }]
      else
        []
    | none => []
  else
    []) ++
  (if card.status = Status.blocked then
    [{ cardId := card.id
       cardTitle := card.title
       type := "blocked_task"
       reason := "Task is blocked and needs attention"
       severity := Severity.medium
       action := "Identify and resolve blocking issues" }]
  else
    []) ++
  (if card.status = Status.todo ∧ card.priority = Priority.critical then
    [{ cardId := card.id
       cardTitle := card.title
       type := "critical_in_todo"
       reason := "Critical priority task should not remain in Todo"
       severity := Severity.high
       action := "Move to \"In Progress\" immediately" }]
  else
    [])

/-- The advisories a single card contributes to the `alerts` group.
The source computes `currentList = board.lists[board.lists.findIndex(...)]`;
when the card is in no list that is `undefined`, and the guard
`card.status === 'Done' && !currentList.name...` then throws a
`TypeError` (for a non-Done card the `&&` short-circuits first), so the
result is an `Except`: `.error` is the thrown exception. -/
def moveToDoneAlerts (board : PopulatedBoard) (card : Card) : Except String (List Advisory) :=
  if card.status = Status.done then
    match board.lists.find? (fun l => listHasCard l card) with
    | none => Except.error "TypeError: cannot read property of undefined"
    | some currentList =>
      if strIncludes currentList.name "done" then
        Except.ok []
      else
        match board.lists.find? (fun l => nameIncludes l "done" || nameIncludes l "complete") with
        | some _ =>
          Except.ok
            [{ cardId := card.id
               cardTitle := card.title
               type := "move_to_done"
               reason := "Completed task should be moved to Done list"
               severity := Severity.low
               action := "Move to completed tasks list" }]
        | none => Except.ok []
  else
    Except.ok []

/-- The four accumulation arrays of the engine. -/
structure RecGroups where
  alerts : List Advisory := []
  priority : List Advisory := []
  dueDate : List Advisory := []
  status : List Advisory := []
deriving DecidableEq, Repr

/-- `allCards`: every card of every populated list, in list order. -/
def allCards (board : PopulatedBoard) : List Card :=
  (board.lists.map PopulatedList.cards).flatten

/-- The `allCards.forEach` loop: each card appends its advisories to the
four groups; a thrown `TypeError` aborts the whole evaluation. -/
def evalCards (board : PopulatedBoard) (now : Int) :
    List Card → RecGroups → Except String RecGroups
  | [], acc => Except.ok acc
  | card :: rest, acc =>
    match moveToDoneAlerts board card with
    | Except.error e => Except.error e
    | Except.ok al =>
      evalCards board now rest
        { alerts := acc.alerts ++ al
          priority := acc.priority ++ priorityAdvisories board card
          dueDate := acc.dueDate ++ dueDateAdvisories now card
          status := acc.status ++ statusAdvisories now card }

/-- The concatenation in the fixed group order
`[...alerts, ...priority, ...dueDate, ...status]`. -/
def RecGroups.concatAll (g : RecGroups) : List Advisory :=
  g.alerts ++ g.priority ++ g.dueDate ++ g.status

/-- The sort comparator `(a, b) => severityOrder[b.severity] - severityOrder[a.severity]`
as the boolean "a may stay before b" relation: the comparator is
non-positive iff `score b ≤ score a`.  `Array.prototype.sort` is a
stable sort, embedded as `List.mergeSort` with this relation. -/
def sevLe (a b : Advisory) : Bool :=
  b.severity.score ≤ a.severity.score

/-- The recommendation engine on a populated board: evaluate every card,
concatenate the groups in fixed order and stable-sort by descending
severity. -/
def getRecommendations (board : PopulatedBoard) (now : Int) :
    Except String (List Advisory) :=
  match evalCards board now (allCards board) {} with
  | Except.error e => Except.error e
  | Except.ok g => Except.ok (g.concatAll.mergeSort sevLe)

/-- `Model.findById` on each collection: first document with the id. -/
def Store.findBoard (s : Store) (i : Nat) : Option BoardDoc :=
  s.boards.find? (fun b => b.id == i)

/-- First list document with the id. -/
def Store.findList (s : Store) (i : Nat) : Option ListDoc :=
  s.lists.find? (fun l => l.id == i)

/-- First card document with the id. -/
def Store.findCard (s : Store) (i : Nat) : Option Card :=
  s.cards.find? (fun c => c.id == i)

/-- `User.findOne({ email })`. -/
def Store.findUserByEmail (s : Store) (email : String) : Option UserDoc :=
  s.users.find? (fun u => u.email == email)

/-- Saving a board document: replace every stored board with that id. -/
def Store.saveBoard (s : Store) (b : BoardDoc) : Store :=
  { s with boards := s.boards.map (fun x => if x.id == b.id then b else x) }

/-- Saving a user document. -/
def Store.saveUser (s : Store) (u : UserDoc) : Store :=
  { s with users := s.users.map (fun x => if x.id == u.id then u else x) }

/-- Saving a card document. -/
def Store.saveCard (s : Store) (c : Card) : Store :=
  { s with cards := s.cards.map (fun x => if x.id == c.id then c else x) }

/-- `List.findByIdAndUpdate(i, f)`: apply `f` to every stored list with
id `i`. -/
def Store.updateList (s : Store) (i : Nat) (f : ListDoc → ListDoc) : Store :=
  { s with lists := s.lists.map (fun x => if x.id == i then f x else x) }

/-- `POST /:id/invite` (`inviteMember`): owner-only invite by email;
an already-member invitee is rejected before any write. -/
def inviteMember (s : Store) (userId boardId : Nat) (email : String) :
    Except ApiErr Store :=
  match s.findBoard boardId with
  | none => Except.error { status := 404, message := "Board not found" }
  | some board =>
    if board.owner ≠ userId then
      Except.error { status := 403, message := "Only board owner can invite users" }
    else
      match s.findUserByEmail email with
      | none => Except.error { status := 404, message := "User not found" }
      | some userToInvite =>
        if board.members.contains userToInvite.id then
          Except.error { status := 400, message := "User already in board" }
        else
          let board' := { board with members := board.members ++ [userToInvite.id] }
          let user' := { userToInvite with boards := userToInvite.boards ++ [board.id] }
          Except.ok ((s.saveBoard board').saveUser user')

/-- The store an invite request leaves behind: the saved one on success,
the untouched one when the handler returns an error response. -/
def applyInvite (s : Store) (userId boardId : Nat) (email : String) : Store :=
  match inviteMember s userId boardId email with
  | Except.ok s' => s'
  | Except.error _ => s

/-- `POST /:boardId/lists` (`createList`).  A missing board falls into
the same `!board || (not owner && not member)` branch as an access
failure, so it answers 403 "Access denied", and the new list's position
is `List.countDocuments({ board: boardId })` taken before the insert.
`newListId` stands for the ObjectId Mongo mints for the new document. -/
def createList (s : Store) (userId boardId : Nat) (name : String)
    (newListId : Nat) : Except ApiErr (Store × ListDoc) :=
  match s.findBoard boardId with
  | none => Except.error { status := 403, message := "Access denied" }
  | some board =>
    if canAccess board userId then
      let listCount := (s.lists.filter (fun l => l.board == boardId)).length
      let list : ListDoc :=
        { id := newListId, name := name, board := boardId
          position := (listCount : Int), cards := [] }
      let board' := { board with lists := board.lists ++ [newListId] }
      Except.ok (({ s with lists := s.lists ++ [list] }).saveBoard board', list)
    else
      Except.error { status := 403, message := "Access denied" }

/-- `POST /:boardId/lists/:listId/cards` (`createCard`): missing board or
list, or a list whose `board` is not the path's board, answer 404; the
new card's position is `Card.countDocuments({ list: listId })` taken
before the insert. -/
def createCard (s : Store) (userId boardId listId : Nat) (title : String)
    (description : String) (dueDate : Option Int) (newCardId : Nat) :
    Except ApiErr (Store × Card) :=
  match s.findBoard boardId, s.findList listId with
  | some board, some list =>
    if list.board ≠ boardId then
      Except.error { status := 404, message := "Board or list not found" }
    else if canAccess board userId then
      let cardCount := (s.cards.filter (fun c => c.list == listId)).length
      let card : Card :=
        { id := newCardId, title := title, description := description
          list := listId, position := (cardCount : Int), dueDate := dueDate
          priority := .low, status := .todo, createdBy := userId }
      let list' := { list with cards := list.cards ++ [newCardId] }
      Except.ok ((({ s with cards := s.cards ++ [card] }).updateList listId
        (fun _ => list')), card)
    else
      Except.error { status := 403, message := "Access denied" }
  | _, _ => Except.error { status := 404, message := "Board or list not found" }

/-- `PATCH /cards/:id/move` (`moveCard`).  The handler fetches the card
(404 if absent), then evaluates `Board.findById(newList.board)`: when
`newListId` resolves to no list this throws a `TypeError` which the
`catch` turns into a 500.  Otherwise a missing old list or board answers
404, then the access check runs against the destination board, then the
card id is `$pull`ed from the old list, `$push`ed onto the new one, and
the card's own `list` and `position` (`position || 0`) are saved. -/
def moveCard (s : Store) (userId cardId newListId : Nat)
    (position : Option Int) : Except ApiErr (Store × Card) :=
  match s.findCard cardId with
  | none => Except.error { status := 404, message := "Card not found" }
  | some card =>
    match s.findList newListId with
    | none => Except.error { status := 500, message := "Server error" }
    | some newList =>
      match s.findList card.list, s.findBoard newList.board with
      | some oldList, some board =>
        if canAccess board userId then
          let s1 := s.updateList oldList.id
            (fun l => { l with cards := l.cards.filter (fun c => c ≠ card.id) })
          let s2 := s1.updateList newListId
            (fun l => { l with cards := l.cards ++ [card.id] })
          let card' := { card with list := newListId, position := position.getD 0 }
          Except.ok (s2.saveCard card', card')
        else
          Except.error { status := 403, message := "Access denied" }
      | _, _ => Except.error { status := 404, message := "List or board not found" }

/-- Populating one list reference of a board for the recommendation
route: dereference each card id (dangling references disappear). -/
def populateList (s : Store) (l : ListDoc) : PopulatedList :=
  { id := l.id, name := l.name
    cards := l.cards.filterMap (fun cid => s.findCard cid) }

/-- `.populate({ path: 'lists', populate: { path: 'cards' } })`. -/
def populateBoard (s : Store) (b : BoardDoc) : PopulatedBoard :=
  { id := b.id, owner := b.owner, members := b.members
    lists := b.lists.filterMap (fun lid => (s.findList lid).map (populateList s)) }

/-- `GET /:id/recommendations`: a missing board falls into the same
`!board || (not owner && not member)` branch as an access failure (403);
otherwise the engine runs on the populated board (a thrown `TypeError`
would become a 500). -/
def getRecommendationsRoute (s : Store) (userId boardId : Nat) (now : Int) :
    Except ApiErr (List Advisory) :=
  match s.findBoard boardId with
  | none => Except.error { status := 403, message := "Access denied" }
  | some board =>
    if canAccess board userId then
      match getRecommendations (populateBoard s board) now with
      | Except.ok out => Except.ok out
      | Except.error _ => Except.error { status := 500, message := "Server error" }
    else
      Except.error { status := 403, message := "Access denied" }

/-! ## Concrete fixtures used by witnesses and counterexamples -/

/-- A board owned by user 7 whose member set already contains user 5. -/
def boardFix : BoardDoc :=
  { id := 1, name := "Project", owner := 7, members := [5], lists := [10, 20] }

/-- The already-invited member, user 5. -/
def userFix : UserDoc :=
  { id := 5, name := "Mem", email := "mem@example.com", boards := [1] }

/-- A card sitting in list 10. -/
def cardFix : Card :=
  { id := 100, title := "task", list := 10, createdBy := 7 }

/-- List 10 ("Todo"), holding card 100. -/
def listFixA : ListDoc :=
  { id := 10, name := "Todo", board := 1, position := 0, cards := [100] }

/-- List 20 ("Doing"), empty. -/
def listFixB : ListDoc :=
  { id := 20, name := "Doing", board := 1, position := 1, cards := [] }

/-- A small store: one board, two lists, one card, one invitable user. -/
def storeFix : Store :=
  { users := [userFix], boards := [boardFix]
    lists := [listFixA, listFixB], cards := [cardFix] }

/-! ## C8 — the owner always passes the access check -/

/-- C8: for every board, `canAccess board board.owner` is true no matter
what the membership set contains: the owner is never denied by any
operation that checks `canAccess`. -/
theorem canAccess_owner (board : BoardDoc) : canAccess board board.owner = true := by
  simp [canAccess]

/-! ## C7 — inviting an existing member is rejected without a write -/

/-- C7: when the board exists, the inviter is the owner and the invitee
resolves but is already in `board.members`, the invite handler answers
with the already-member rejection (the spec's Conflict, sent by the
source as status 400 "User already in board") and the store is left
unchanged: no membership write and no write to the invitee's boards. -/
theorem invite_member_conflict (s : Store) (userId boardId : Nat)
    (email : String) (board : BoardDoc) (u : UserDoc)
    (hb : s.findBoard boardId = some board)
    (how : board.owner = userId)
    (hu : s.findUserByEmail email = some u)
    (hm : u.id ∈ board.members) :
    inviteMember s userId boardId email =
      Except.error { status := 400, message := "User already in board" } ∧
    applyInvite s userId boardId email = s := by
  have h1 : inviteMember s userId boardId email =
      Except.error { status := 400, message := "User already in board" } := by
    unfold inviteMember
    rw [hb, hu]
    simp [how, hm]
  refine ⟨h1, ?_⟩
  unfold applyInvite
  rw [h1]

/-- Witness for C7 at the concrete fixture store. -/
theorem invite_member_conflict_witness :
    inviteMember storeFix 7 1 "mem@example.com" =
      Except.error { status := 400, message := "User already in board" } ∧
    applyInvite storeFix 7 1 "mem@example.com" = storeFix :=
  invite_member_conflict storeFix 7 1 "mem@example.com" boardFix userFix
    (by rfl) (by rfl) (by rfl) (by decide)

/-! ## C6 — created lists and cards are appended at the sibling count -/

/-- C6: a list created through `createList` gets position
`List.countDocuments({ board: boardId })`, the number of sibling lists
of that board immediately before the insert; a card created through
`createCard` gets position `Card.countDocuments({ list: listId })`, the
number of sibling cards of that list immediately before the insert. -/
theorem create_position_eq_sibling_count :
    (∀ (s : Store) (userId boardId : Nat) (name : String) (newListId : Nat)
        (s' : Store) (l : ListDoc),
        createList s userId boardId name newListId = Except.ok (s', l) →
        l.position = ((s.lists.filter (fun x => x.board == boardId)).length : Int)) ∧
    (∀ (s : Store) (userId boardId listId : Nat) (title description : String)
        (dueDate : Option Int) (newCardId : Nat) (s' : Store) (c : Card),
        createCard s userId boardId listId title description dueDate newCardId =
          Except.ok (s', c) →
        c.position = ((s.cards.filter (fun x => x.list == listId)).length : Int)) := by
  constructor
  · intro s userId boardId name newListId s' l h
    unfold createList at h
    split at h
    · exact absurd h (by simp)
    · split at h
      · cases h
        rfl
      · exact absurd h (by simp)
  · intro s userId boardId listId title description dueDate newCardId s' c h
    unfold createCard at h
    split at h
    · split at h
      · exact absurd h (by simp)
      · split at h
        · cases h
          rfl
        · exact absurd h (by simp)
    · exact absurd h (by simp)

/-- The list document `createList storeFix 7 1 "Later" 50` creates. -/
def listFixNew : ListDoc :=
  { id := 50, name := "Later", board := 1, position := 2, cards := [] }

/-- The store `createList storeFix 7 1 "Later" 50` leaves behind. -/
def storeAfterCreateList : Store :=
  { users := [userFix]
    boards := [{ boardFix with lists := [10, 20, 50] }]
    lists := [listFixA, listFixB, listFixNew]
    cards := [cardFix] }

/-- The card document `createCard storeFix 7 1 10 "new" "" none 101` creates. -/
def cardFixNew : Card :=
  { id := 101, title := "new", list := 10, position := 1, createdBy := 7 }

/-- The store that `createCard` call leaves behind. -/
def storeAfterCreateCard : Store :=
  { users := [userFix]
    boards := [boardFix]
    lists := [{ listFixA with cards := [100, 101] }, listFixB]
    cards := [cardFix, cardFixNew] }

/-- Witness for C6: in the fixture store board 1 already has two lists,
so the created list lands at position 2; list 10 already has one card,
so the created card lands at position 1. -/
theorem create_position_eq_sibling_count_witness :
    listFixNew.position
      = ((storeFix.lists.filter (fun x => x.board == 1)).length : Int) ∧
    cardFixNew.position
      = ((storeFix.cards.filter (fun x => x.list == 10)).length : Int) :=
  ⟨create_position_eq_sibling_count.1 storeFix 7 1 "Later" 50
      storeAfterCreateList listFixNew (by rfl),
   create_position_eq_sibling_count.2 storeFix 7 1 10 "new" "" none 101
      storeAfterCreateCard cardFixNew (by rfl)⟩

/-! ## C5 — a successful move transfers the card -/

/-- `find?` commutes with a map that does not change the predicate's
verdict on any element. -/
theorem find?_map_pred {α : Type} {p : α → Bool} {g : α → α}
    (hg : ∀ x, p (g x) = p x) (l : List α) :
    (l.map g).find? p = (l.find? p).map g := by
  rw [List.find?_map]
  rw [show (p ∘ g) = p from funext hg]

/-- C5: when `moveCard` succeeds in moving a card from its list A
(`card.list`) to a different list B (`newListId`), the stored A no
longer references the card, the stored B does, the stored card's own
`list` field is B's id, and with no explicit position the stored
position is 0. -/
theorem moveCard_transfers (s : Store) (userId cardId newListId : Nat)
    (position : Option Int) (card : Card) (s' : Store) (card' : Card)
    (hc : s.findCard cardId = some card)
    (hne : card.list ≠ newListId)
    (h : moveCard s userId cardId newListId position = Except.ok (s', card')) :
    card'.list = newListId ∧
    (position = none → card'.position = 0) ∧
    (∃ oldL, s'.findList card.list = some oldL ∧ card.id ∉ oldL.cards) ∧
    (∃ newL, s'.findList newListId = some newL ∧ card.id ∈ newL.cards) ∧
    s'.findCard cardId = some card' := by
  have hcid : card.id = cardId := by
    have := List.find?_some hc
    simpa using this
  unfold moveCard at h
  split at h
  · exact absurd h (by simp)
  next card0 hc0 =>
  have hcard0 : card = card0 := by
    rw [hc0] at hc
    exact (Option.some.inj hc).symm
  subst hcard0
  split at h
  · exact absurd h (by simp)
  next newList hn =>
  split at h
  rotate_left
  · exact absurd h (by simp)
  next oldList board ho hbd =>
  split at h
  rotate_left
  · exact absurd h (by simp)
  next hacc =>
  have hoid : oldList.id = card.list := by
    have := List.find?_some ho
    simpa using this
  have hnid : newList.id = newListId := by
    have := List.find?_some hn
    simpa using this
  cases h
  refine ⟨rfl, fun hp => by simp [hp], ?_, ?_, ?_⟩
  · -- the old list no longer references the card
    refine ⟨{ oldList with cards := oldList.cards.filter (fun c => c ≠ card.id) },
      ?_, by simp⟩
    show ((((s.updateList oldList.id _).updateList newListId _).saveCard _).findList card.list) = _
    unfold Store.findList Store.updateList Store.saveCard
    rw [find?_map_pred (fun x => by split <;> rfl), find?_map_pred (fun x => by split <;> rfl)]
    unfold Store.findList at ho
    rw [ho]
    simp [hoid, hne]
  · -- the new list now references the card
    refine ⟨{ newList with cards := newList.cards ++ [card.id] }, ?_, by simp⟩
    show ((((s.updateList oldList.id _).updateList newListId _).saveCard _).findList newListId) = _
    unfold Store.findList Store.updateList Store.saveCard
    rw [find?_map_pred (fun x => by split <;> rfl), find?_map_pred (fun x => by split <;> rfl)]
    unfold Store.findList at hn
    rw [hn]
    simp [hnid, hoid, hne.symm]
  · -- the stored card is the returned card
    show ((((s.updateList oldList.id _).updateList newListId _).saveCard _).findCard cardId) = _
    unfold Store.findCard Store.updateList Store.saveCard
    rw [find?_map_pred ?hpred]
    case hpred =>
      intro x
      by_cases hx : x.id = card.id
      · simp [hx, hcid]
      · rw [if_neg (by simpa using hx)]
    unfold Store.findCard at hc
    rw [hc]
    simp


/-- The card after `moveCard storeFix 7 100 20 none`. -/
def cardFixMoved : Card :=
  { id := 100, title := "task", list := 20, createdBy := 7 }

/-- The store after `moveCard storeFix 7 100 20 none`: list 10 lost the
reference, list 20 gained it, the card's `list` field is 20. -/
def storeAfterMove : Store :=
  { users := [userFix]
    boards := [boardFix]
    lists := [{ listFixA with cards := [] }, { listFixB with cards := [100] }]
    cards := [cardFixMoved] }

/-- Witness for C5 at the concrete fixture store. -/
theorem moveCard_transfers_witness :
    cardFixMoved.list = 20 ∧
    ((none : Option Int) = none → cardFixMoved.position = 0) ∧
    (∃ oldL, storeAfterMove.findList cardFix.list = some oldL ∧ cardFix.id ∉ oldL.cards) ∧
    (∃ newL, storeAfterMove.findList 20 = some newL ∧ cardFix.id ∈ newL.cards) ∧
    storeAfterMove.findCard 100 = some cardFixMoved :=
  moveCard_transfers storeFix 7 100 20 none cardFix storeAfterMove cardFixMoved
    (by rfl) (by decide) (by rfl)

/-! ## C9 — which operations actually answer NotFound -/

/-- An empty store: no board 1, no list, no card. -/
def storeEmpty : Store := {}

/-- Counterexample to C9 (claim: every operation referencing a missing
Board/List/Card/User returns NotFound; in particular `moveCard` with a
nonexistent `newListId`, `createList` on a nonexistent board and
`getRecommendations` on a nonexistent board all return NotFound).
At concrete inputs: `createList` and `getRecommendations` on the missing
board 99 answer 403 "Access denied" (the `!board ||` clause is merged
into the access check), and `moveCard` of the existing card 100 to the
nonexistent list 999 answers 500 "Server error" (the handler dereferences
`newList.board` before its null check, so the `TypeError` is caught by
the generic handler) — none of them a 404. -/
theorem notFound_counterexample :
    createList storeFix 7 99 "Extra" 50 =
      Except.error { status := 403, message := "Access denied" } ∧
    getRecommendationsRoute storeFix 7 99 0 =
      Except.error { status := 403, message := "Access denied" } ∧
    moveCard storeFix 7 100 999 none =
      Except.error { status := 500, message := "Server error" } := by
  refine ⟨by rfl, by rfl, by rfl⟩

/-- C9 as amended: the operations that do answer 404 on a missing
referent are `moveCard` with a nonexistent card, `createCard` with a
missing board or list or with a list whose `board` differs from the
path's board, and `inviteMember` with a missing board or (when the
inviter is the owner, so the lookup is reached) a missing invitee; but
`createList` and `getRecommendations` on a missing board answer 403
"Access denied", and `moveCard` with a nonexistent `newListId` fails
with the generic 500 "Server error". -/
theorem notFound_behaviour :
    (∀ (s : Store) (userId cardId newListId : Nat) (position : Option Int),
        s.findCard cardId = none →
        moveCard s userId cardId newListId position =
          Except.error { status := 404, message := "Card not found" }) ∧
    (∀ (s : Store) (userId boardId listId : Nat) (title description : String)
        (dueDate : Option Int) (newCardId : Nat),
        s.findBoard boardId = none ∨ s.findList listId = none →
        createCard s userId boardId listId title description dueDate newCardId =
          Except.error { status := 404, message := "Board or list not found" }) ∧
    (∀ (s : Store) (userId boardId : Nat) (email : String),
        s.findBoard boardId = none →
        inviteMember s userId boardId email =
          Except.error { status := 404, message := "Board not found" }) ∧
    (∀ (s : Store) (userId boardId : Nat) (name : String) (newListId : Nat),
        s.findBoard boardId = none →
        createList s userId boardId name newListId =
          Except.error { status := 403, message := "Access denied" }) ∧
    (∀ (s : Store) (userId boardId : Nat) (now : Int),
        s.findBoard boardId = none →
        getRecommendationsRoute s userId boardId now =
          Except.error { status := 403, message := "Access denied" }) ∧
    (∀ (s : Store) (userId cardId newListId : Nat) (position : Option Int)
        (card : Card),
        s.findCard cardId = some card →
        s.findList newListId = none →
        moveCard s userId cardId newListId position =
          Except.error { status := 500, message := "Server error" }) ∧
    (∀ (s : Store) (userId boardId listId : Nat) (title description : String)
        (dueDate : Option Int) (newCardId : Nat) (board : BoardDoc)
        (list : ListDoc),
        s.findBoard boardId = some board →
        s.findList listId = some list →
        list.board ≠ boardId →
        createCard s userId boardId listId title description dueDate newCardId =
          Except.error { status := 404, message := "Board or list not found" }) ∧
    (∀ (s : Store) (userId boardId : Nat) (email : String) (board : BoardDoc),
        s.findBoard boardId = some board →
        board.owner = userId →
        s.findUserByEmail email = none →
        inviteMember s userId boardId email =
          Except.error { status := 404, message := "User not found" }) := by
  refine ⟨?_, ?_, ?_, ?_, ?_, ?_, ?_, ?_⟩
  · intro s userId cardId newListId position hc
    unfold moveCard
    rw [hc]
  · intro s userId boardId listId title description dueDate newCardId hmiss
    unfold createCard
    rcases hmiss with hb | hl
    · rw [hb]
    · rw [hl]
      rcases s.findBoard boardId with _ | b <;> rfl
  · intro s userId boardId email hb
    unfold inviteMember
    rw [hb]
  · intro s userId boardId name newListId hb
    unfold createList
    rw [hb]
  · intro s userId boardId now hb
    unfold getRecommendationsRoute
    rw [hb]
  · intro s userId cardId newListId position card hc hl
    unfold moveCard
    rw [hc, hl]
  · intro s userId boardId listId title description dueDate newCardId board list hb hl hmm
    unfold createCard
    rw [hb, hl]
    simp [hmm]
  · intro s userId boardId email board hb how hu
    unfold inviteMember
    rw [hb]
    simp [how, hu]

/-- A second board (id 2, also owned by user 7) with no lists, so that
list 10 belongs to board 1, not to it. -/
def boardFix2 : BoardDoc :=
  { id := 2, name := "Other", owner := 7, members := [], lists := [] }

/-- The fixture store extended with the second board. -/
def storeTwoBoards : Store :=
  { users := [userFix], boards := [boardFix, boardFix2]
    lists := [listFixA, listFixB], cards := [cardFix] }

/-- Witness for the amended C9, exercising every conjunct at concrete
stores. -/
theorem notFound_behaviour_witness :
    moveCard storeEmpty 7 100 20 none =
      Except.error { status := 404, message := "Card not found" } ∧
    createCard storeEmpty 7 1 10 "t" "" none 101 =
      Except.error { status := 404, message := "Board or list not found" } ∧
    inviteMember storeEmpty 7 1 "mem@example.com" =
      Except.error { status := 404, message := "Board not found" } ∧
    createList storeEmpty 7 1 "L" 50 =
      Except.error { status := 403, message := "Access denied" } ∧
    getRecommendationsRoute storeEmpty 7 1 0 =
      Except.error { status := 403, message := "Access denied" } ∧
    moveCard storeFix 7 100 999 none =
      Except.error { status := 500, message := "Server error" } ∧
    createCard storeTwoBoards 7 2 10 "t" "" none 101 =
      Except.error { status := 404, message := "Board or list not found" } ∧
    inviteMember storeFix 7 1 "ghost@example.com" =
      Except.error { status := 404, message := "User not found" } :=
  ⟨notFound_behaviour.1 storeEmpty 7 100 20 none (by rfl),
   notFound_behaviour.2.1 storeEmpty 7 1 10 "t" "" none 101 (Or.inl (by rfl)),
   notFound_behaviour.2.2.1 storeEmpty 7 1 "mem@example.com" (by rfl),
   notFound_behaviour.2.2.2.1 storeEmpty 7 1 "L" 50 (by rfl),
   notFound_behaviour.2.2.2.2.1 storeEmpty 7 1 0 (by rfl),
   notFound_behaviour.2.2.2.2.2.1 storeFix 7 100 999 none cardFix (by rfl) (by rfl),
   notFound_behaviour.2.2.2.2.2.2.1 storeTwoBoards 7 2 10 "t" "" none 101
     boardFix2 listFixA (by rfl) (by rfl) (by decide),
   notFound_behaviour.2.2.2.2.2.2.2 storeFix 7 1 "ghost@example.com" boardFix
     (by rfl) (by rfl) (by rfl)⟩

/-! ## C2 — the due-date rules are mutually exclusive -/

/-- C2: per card the due-date group receives at most one advisory (the
rules form an if/else-if chain), and a card due exactly one day ago with
status Todo and non-Critical priority receives exactly one due-date
advisory: an `overdue` of severity medium. -/
theorem dueDate_rules_exclusive :
    (∀ (now : Int) (card : Card), (dueDateAdvisories now card).length ≤ 1) ∧
    (∀ (now : Int) (card : Card),
        card.dueDate = some (now - 86400000) →
        card.status = Status.todo →
        card.priority ≠ Priority.critical →
        ∃ r, dueDateAdvisories now card = [r] ∧ r.type = "overdue" ∧
          r.severity = Severity.medium ∧ r.cardId = card.id) := by
  constructor
  · intro now card
    cases hd : card.dueDate with
    | none =>
      simp only [dueDateAdvisories, hd]
      split_ifs <;> simp
    | some due =>
      simp only [dueDateAdvisories, hd]
      split_ifs <;> simp
  · intro now card hd hs hp
    have hdd : daysUntilDue (now - 86400000) now = -1 := by
      unfold daysUntilDue
      have h1 : now - (now - 86400000) = 86400000 := by ring
      rw [h1]
      decide
    simp only [dueDateAdvisories, hd, hdd]
    norm_num [hs, hp]
    exact ⟨{ cardId := card.id, cardTitle := card.title, type := "overdue"
             reason := "Task was due " ++ toString (1 : Nat) ++ " day(s) ago but is not completed"
             severity := Severity.medium, action := "Complete task immediately" },
           by simp, rfl, rfl, rfl⟩

/-- Witness for C2: a low-priority Todo card due exactly one day before
the evaluation instant. -/
def cardOverdueFix : Card :=
  { id := 100, title := "task", list := 10, dueDate := some (-86400000)
    status := .todo, createdBy := 7 }

/-- Witness for C2 at the concrete overdue card. -/
theorem dueDate_rules_exclusive_witness :
    (dueDateAdvisories 0 cardOverdueFix).length ≤ 1 ∧
    ∃ r, dueDateAdvisories 0 cardOverdueFix = [r] ∧ r.type = "overdue" ∧
      r.severity = Severity.medium ∧ r.cardId = cardOverdueFix.id :=
  ⟨dueDate_rules_exclusive.1 0 cardOverdueFix,
   dueDate_rules_exclusive.2 0 cardOverdueFix (by rfl) (by rfl) (by decide)⟩

/-! ## C4 — cards referenced by no list and the Done-list check -/

/-- When the card sits in some list of the board, the alert step cannot
throw. -/
theorem moveToDoneAlerts_ok (board : PopulatedBoard) (card : Card)
    (hmem : ∃ l ∈ board.lists, listHasCard l card = true) :
    ∃ al, moveToDoneAlerts board card = Except.ok al := by
  unfold moveToDoneAlerts
  by_cases hs : card.status = Status.done
  · rw [if_pos hs]
    cases hf : board.lists.find? (fun l => listHasCard l card) with
    | none =>
      rw [List.find?_eq_none] at hf
      obtain ⟨l, hl, hcard⟩ := hmem
      exact absurd hcard (by simpa using hf l hl)
    | some cl =>
      simp only [hf]
      split
      · exact ⟨[], rfl⟩
      · split
        · exact ⟨_, rfl⟩
        · exact ⟨[], rfl⟩
  · rw [if_neg hs]
    exact ⟨[], rfl⟩

/-- Every card the engine iterates over comes from some list of the
board. -/
theorem allCards_mem_list (board : PopulatedBoard) :
    ∀ c ∈ allCards board, ∃ l ∈ board.lists, listHasCard l c = true := by
  intro c hc
  unfold allCards at hc
  rw [List.mem_flatten] at hc
  obtain ⟨cs, hcs, hc2⟩ := hc
  rw [List.mem_map] at hcs
  obtain ⟨l, hl, rfl⟩ := hcs
  refine ⟨l, hl, ?_⟩
  unfold listHasCard
  rw [List.any_eq_true]
  exact ⟨c, hc2, by simp⟩

/-- The card loop succeeds whenever every iterated card sits in some
list of the board. -/
theorem evalCards_total (board : PopulatedBoard) (now : Int) :
    ∀ (cs : List Card) (acc : RecGroups),
      (∀ c ∈ cs, ∃ l ∈ board.lists, listHasCard l c = true) →
      ∃ g, evalCards board now cs acc = Except.ok g := by
  intro cs
  induction cs with
  | nil => exact fun acc _ => ⟨acc, rfl⟩
  | cons c rest ih =>
    intro acc hmem
    obtain ⟨al, hal⟩ := moveToDoneAlerts_ok board c (hmem c (by simp))
    simp only [evalCards, hal]
    exact ih _ (fun x hx => hmem x (by simp [hx]))

/-- A Done card sitting in no list of the board. -/
def cardDoneFix : Card :=
  { id := 200, title := "finished", list := 99, status := .done, createdBy := 7 }

/-- A populated board none of whose lists contains card 200. -/
def boardNoListFix : PopulatedBoard :=
  { id := 1, owner := 7, lists := [{ id := 10, name := "Todo", cards := [] }] }

/-- Counterexample to C4 as stated: for a card referenced by no list the
Done-list check is not always skipped safely — evaluating it on a card
whose status is Done dereferences the missing containing list and
throws. -/
theorem done_card_no_list_raises :
    moveToDoneAlerts boardNoListFix cardDoneFix =
      Except.error "TypeError: cannot read property of undefined" := by
  rfl

/-- C4 as amended: for a card referenced by no list of the board the
Done-list check is skipped safely whenever the card's status is not
Done (the `card.status === 'Done' &&` guard short-circuits before the
containing list is dereferenced) — a Done card in no list would throw —
and inside `getRecommendations` itself every iterated card comes from
some list's card collection, so the evaluation as a whole never fails. -/
theorem no_list_done_check_safe :
    (∀ (board : PopulatedBoard) (card : Card),
        (∀ l ∈ board.lists, listHasCard l card = false) →
        card.status ≠ Status.done →
        moveToDoneAlerts board card = Except.ok []) ∧
    (∀ (board : PopulatedBoard) (now : Int),
        ∃ out, getRecommendations board now = Except.ok out) := by
  constructor
  · intro board card _ hs
    unfold moveToDoneAlerts
    rw [if_neg hs]
  · intro board now
    obtain ⟨g, hg⟩ := evalCards_total board now (allCards board) {}
      (allCards_mem_list board)
    refine ⟨g.concatAll.mergeSort sevLe, ?_⟩
    unfold getRecommendations
    rw [hg]

/-- A Blocked card sitting in no list of the board. -/
def cardBlockedFix : Card :=
  { id := 201, title := "stuck", list := 99, status := .blocked, createdBy := 7 }

/-- Witness for the amended C4: the Blocked card in no list is skipped
safely, and the engine succeeds on the fixture board. -/
theorem no_list_done_check_safe_witness :
    moveToDoneAlerts boardNoListFix cardBlockedFix = Except.ok [] ∧
    ∃ out, getRecommendations boardNoListFix 0 = Except.ok out :=
  ⟨no_list_done_check_safe.1 boardNoListFix cardBlockedFix (by decide) (by decide),
   no_list_done_check_safe.2 boardNoListFix 0⟩

/-! ## C3 — when the critical-priority rule actually fires -/

/-- Advisories already accumulated in the `priority` group survive the
rest of the card loop. -/
theorem evalCards_priority_mono (board : PopulatedBoard) (now : Int) :
    ∀ (cs : List Card) (acc g : RecGroups),
      evalCards board now cs acc = Except.ok g →
      ∀ a ∈ acc.priority, a ∈ g.priority := by
  intro cs
  induction cs with
  | nil =>
    intro acc g h a ha
    cases h
    exact ha
  | cons c rest ih =>
    intro acc g h a ha
    unfold evalCards at h
    cases hal : moveToDoneAlerts board c with
    | error e => rw [hal] at h; exact absurd h (by simp)
    | ok al =>
      rw [hal] at h
      exact ih _ g h a (List.mem_append_left _ ha)

/-- Every advisory a listed card contributes to the `priority` group is
in the final `priority` group. -/
theorem evalCards_priority_mem (board : PopulatedBoard) (now : Int) :
    ∀ (cs : List Card) (acc g : RecGroups),
      evalCards board now cs acc = Except.ok g →
      ∀ c ∈ cs, ∀ a ∈ priorityAdvisories board c, a ∈ g.priority := by
  intro cs
  induction cs with
  | nil =>
    intro acc g _ c hc
    exact absurd hc (by simp)
  | cons c0 rest ih =>
    intro acc g h c hc a ha
    unfold evalCards at h
    cases hal : moveToDoneAlerts board c0 with
    | error e => rw [hal] at h; exact absurd h (by simp)
    | ok al =>
      rw [hal] at h
      rcases List.mem_cons.mp hc with rfl | hrest
      · exact evalCards_priority_mono board now rest _ g h a
          (List.mem_append_right _ ha)
      · exact ih _ g h c hrest a ha

/-- C3 as amended: the `critical_priority` advisory is emitted for a
Critical card exactly when some list whose name contains the
case-insensitive substring "in progress" exists and the first such list
does not contain the card.  (The source guards the rule with
`criticalList && ...`, so on a board with no "in progress" list the rule
never fires, and only membership in the first matching list is
checked.) -/
theorem critical_priority_emitted (board : PopulatedBoard) (now : Int)
    (card : Card) (criticalList : PopulatedList) (out : List Advisory)
    (hL : board.lists.find? (fun l => nameIncludes l "in progress") = some criticalList)
    (hmem : card ∈ allCards board)
    (hcrit : card.priority = Priority.critical)
    (hnot : listHasCard criticalList card = false)
    (hout : getRecommendations board now = Except.ok out) :
    ∃ a ∈ out, a.cardId = card.id ∧ a.type = "critical_priority" ∧
      a.severity = Severity.high := by
  have hadv : ∃ a ∈ priorityAdvisories board card,
      a.cardId = card.id ∧ a.type = "critical_priority" ∧
      a.severity = Severity.high := by
    refine ⟨{ cardId := card.id, cardTitle := card.title
              type := "critical_priority"
              reason := "Critical priority task should be in progress immediately"
              severity := Severity.high
              action := "Move to \"In Progress\" list" }, ?_, rfl, rfl, rfl⟩
    unfold priorityAdvisories
    apply List.mem_append_left
    unfold criticalPriorityAdvisories
    rw [if_pos hcrit]
    simp only [hL, hnot]
    simp
  obtain ⟨a, ha, hprops⟩ := hadv
  unfold getRecommendations at hout
  cases hg : evalCards board now (allCards board) {} with
  | error e => rw [hg] at hout; exact absurd hout (by simp)
  | ok g =>
    rw [hg] at hout
    have hag : a ∈ g.priority :=
      evalCards_priority_mem board now (allCards board) {} g hg card hmem a ha
    have haout : a ∈ out := by
      cases hout
      rw [List.mem_mergeSort]
      unfold RecGroups.concatAll
      exact List.mem_append_left _ (List.mem_append_left _ (List.mem_append_right _ hag))
    exact ⟨a, haout, hprops⟩

/-- A Critical card (status Review, no due date) in list 10. -/
def cardC3 : Card :=
  { id := 100, title := "task", list := 10, priority := .critical
    status := .review, createdBy := 7 }

/-- A board holding the Critical card in "Backlog" and having no list
whose name contains "in progress". -/
def boardC3 : PopulatedBoard :=
  { id := 1, owner := 7
    lists := [{ id := 10, name := "Backlog", cards := [cardC3] }] }

/-- The single advisory the engine produces for `boardC3`. -/
def advC3 : Advisory :=
  { cardId := 100, cardTitle := "task", type := "no_due_date_high_priority"
    reason := "Critical priority task has no due date"
    severity := Severity.medium
    action := "Set a realistic due date for proper planning" }

/-- Counterexample to C3 as stated: on `boardC3` the Critical card 100
is contained in no list whose name includes "in progress" (there is no
such list at all), yet the engine's entire output is one
`no_due_date_high_priority` advisory — no `critical_priority` advisory
is emitted for it. -/
theorem critical_priority_counterexample :
    getRecommendations boardC3 0 = Except.ok [advC3] ∧
    (List.all [advC3] (fun a => a.type ≠ "critical_priority")) = true := by
  constructor
  · have h : getRecommendations boardC3 0 = Except.ok ([advC3].mergeSort sevLe) := rfl
    rw [List.mergeSort_singleton] at h
    exact h
  · decide

/-- The fixture board plus an "In Progress" list not containing the
card. -/
def boardC3w : PopulatedBoard :=
  { id := 1, owner := 7
    lists := [{ id := 10, name := "Backlog", cards := [cardC3] },
              { id := 11, name := "In Progress", cards := [] }] }

/-- The `critical_priority` advisory emitted on `boardC3w`. -/
def advC3crit : Advisory :=
  { cardId := 100, cardTitle := "task", type := "critical_priority"
    reason := "Critical priority task should be in progress immediately"
    severity := Severity.high
    action := "Move to \"In Progress\" list" }

/-- Witness for the amended C3 on the board that does have an
"In Progress" list. -/
theorem critical_priority_emitted_witness :
    ∃ a ∈ [advC3crit, advC3], a.cardId = cardC3.id ∧
      a.type = "critical_priority" ∧ a.severity = Severity.high := by
  have hout : getRecommendations boardC3w 0 = Except.ok [advC3crit, advC3] := by
    have h : getRecommendations boardC3w 0 =
        Except.ok ([advC3crit, advC3].mergeSort sevLe) := rfl
    rw [List.mergeSort_of_sorted (by decide)] at h
    exact h
  exact critical_priority_emitted boardC3w 0 cardC3
    { id := 11, name := "In Progress", cards := [] } [advC3crit, advC3]
    (by rfl) (by decide) (by rfl) (by rfl) hout

/-! ## C10 — every advisory names a card of the board -/

/-- Every priority-group advisory of a card carries that card's id. -/
theorem priorityAdvisories_cardId (board : PopulatedBoard) (c : Card)
    (a : Advisory) (h : a ∈ priorityAdvisories board c) : a.cardId = c.id := by
  unfold priorityAdvisories criticalPriorityAdvisories highPriorityAdvisories at h
  rcases List.mem_append.mp h with h | h
  all_goals
    repeat' split at h
  all_goals simp_all

/-- Every due-date-group advisory of a card carries that card's id. -/
theorem dueDateAdvisories_cardId (now : Int) (c : Card)
    (a : Advisory) (h : a ∈ dueDateAdvisories now c) : a.cardId = c.id := by
  cases hd : c.dueDate with
  | none =>
    simp only [dueDateAdvisories, hd] at h
    split_ifs at h <;> simp_all
  | some due =>
    simp only [dueDateAdvisories, hd] at h
    split_ifs at h <;> simp_all

/-- Every status-group advisory of a card carries that card's id. -/
theorem statusAdvisories_cardId (now : Int) (c : Card)
    (a : Advisory) (h : a ∈ statusAdvisories now c) : a.cardId = c.id := by
  unfold statusAdvisories at h
  rcases List.mem_append.mp h with h | h
  · rcases List.mem_append.mp h with h | h
    · split at h
      · cases hd : c.dueDate with
        | none => simp only [hd] at h; simp at h
        | some due =>
          simp only [hd] at h
          split_ifs at h <;> simp_all
      · simp at h
    · split at h <;> simp_all
  · split at h <;> simp_all

/-- Every alert-group advisory of a card carries that card's id. -/
theorem moveToDoneAlerts_cardId (board : PopulatedBoard) (c : Card)
    (al : List Advisory) (hal : moveToDoneAlerts board c = Except.ok al)
    (a : Advisory) (h : a ∈ al) : a.cardId = c.id := by
  unfold moveToDoneAlerts at hal
  repeat' split at hal
  all_goals cases hal
  all_goals simp_all

/-- Every advisory of the final groups either was already accumulated or
names one of the looped-over cards. -/
theorem evalCards_concat_cardIds (board : PopulatedBoard) (now : Int) :
    ∀ (cs : List Card) (acc g : RecGroups),
      evalCards board now cs acc = Except.ok g →
      ∀ a ∈ g.concatAll, a ∈ acc.concatAll ∨ ∃ c ∈ cs, a.cardId = c.id := by
  intro cs
  induction cs with
  | nil =>
    intro acc g h a ha
    cases h
    exact Or.inl ha
  | cons c rest ih =>
    intro acc g h a ha
    unfold evalCards at h
    cases hal : moveToDoneAlerts board c with
    | error e => rw [hal] at h; exact absurd h (by simp)
    | ok al =>
      rw [hal] at h
      rcases ih _ g h a ha with hacc | ⟨c', hc', hid⟩
      · simp only [RecGroups.concatAll, List.mem_append] at hacc ⊢
        rcases hacc with (((hacc | hacc) | (hacc | hacc)) | (hacc | hacc)) | (hacc | hacc)
        · exact Or.inl (Or.inl (Or.inl (Or.inl hacc)))
        · exact Or.inr ⟨c, by simp, moveToDoneAlerts_cardId board c al hal a hacc⟩
        · exact Or.inl (Or.inl (Or.inl (Or.inr hacc)))
        · exact Or.inr ⟨c, by simp, priorityAdvisories_cardId board c a hacc⟩
        · exact Or.inl (Or.inl (Or.inr hacc))
        · exact Or.inr ⟨c, by simp, dueDateAdvisories_cardId now c a hacc⟩
        · exact Or.inl (Or.inr hacc)
        · exact Or.inr ⟨c, by simp, statusAdvisories_cardId now c a hacc⟩
      · exact Or.inr ⟨c', List.mem_cons_of_mem _ hc', hid⟩

/-- C10: every advisory `getRecommendations` returns is well-formed:
its `cardId` is the id of some card contained in one of the input
board's lists, and its severity is high, medium or low. -/
theorem advisories_wellformed (board : PopulatedBoard) (now : Int)
    (out : List Advisory) (h : getRecommendations board now = Except.ok out) :
    ∀ a ∈ out, (∃ l ∈ board.lists, ∃ c ∈ l.cards, a.cardId = c.id) ∧
      (a.severity = Severity.high ∨ a.severity = Severity.medium ∨
        a.severity = Severity.low) := by
  intro a ha
  refine ⟨?_, by cases a.severity <;> simp⟩
  unfold getRecommendations at h
  cases hg : evalCards board now (allCards board) {} with
  | error e => rw [hg] at h; exact absurd h (by simp)
  | ok g =>
    rw [hg] at h
    cases h
    have hmem : a ∈ g.concatAll := List.mem_mergeSort.mp ha
    rcases evalCards_concat_cardIds board now (allCards board) {} g hg a hmem with
      hacc | ⟨c, hc, hid⟩
    · exact absurd hacc (by simp [RecGroups.concatAll])
    · unfold allCards at hc
      rw [List.mem_flatten] at hc
      obtain ⟨cs, hcs, hc2⟩ := hc
      rw [List.mem_map] at hcs
      obtain ⟨l, hl, rfl⟩ := hcs
      exact ⟨l, hl, c, hc2, hid⟩

/-- Witness for C10, instantiated at the first advisory of the
two-advisory fixture board. -/
theorem advisories_wellformed_witness :
    (∃ l ∈ boardC3w.lists, ∃ c ∈ l.cards, advC3crit.cardId = c.id) ∧
    (advC3crit.severity = Severity.high ∨ advC3crit.severity = Severity.medium ∨
      advC3crit.severity = Severity.low) :=
  advisories_wellformed boardC3w 0 [advC3crit, advC3] (by
    have h : getRecommendations boardC3w 0 =
        Except.ok ([advC3crit, advC3].mergeSort sevLe) := rfl
    rw [List.mergeSort_of_sorted (by decide)] at h
    exact h) advC3crit (by simp)

/-! ## C1 — ranking: stable sort by descending severity -/

/-- The sort relation is transitive. -/
theorem sevLe_trans : ∀ a b c : Advisory, sevLe a b → sevLe b c → sevLe a c := by
  intro a b c
  simp only [sevLe, decide_eq_true_eq]
  omega

/-- The sort relation is total. -/
theorem sevLe_total : ∀ a b : Advisory, sevLe a b || sevLe b a := by
  intro a b
  simp only [sevLe, Bool.or_eq_true, decide_eq_true_eq]
  omega

/-- C1: the advisory sequence `getRecommendations` returns is the stable
sort, by descending severity, of the four groups concatenated in the
fixed order alerts, priority, dueDate, status: whenever an advisory of
strictly higher severity score appears at index `i` and a lower one at
index `j`, then `i < j`; and for each severity class the subsequence of
the output with that severity is exactly the subsequence of the group
concatenation with that severity (stability: the original concatenation
order — group order, then card iteration order — is preserved inside
every class of equal severity). -/
theorem recommendations_ranking (board : PopulatedBoard) (now : Int)
    (out : List Advisory)
    (h : getRecommendations board now = Except.ok out) :
    (∀ (i j : Nat) (hi : i < out.length) (hj : j < out.length),
        (out.get ⟨j, hj⟩).severity.score < (out.get ⟨i, hi⟩).severity.score →
        i < j) ∧
    (∃ g, evalCards board now (allCards board) {} = Except.ok g ∧
        ∀ s : Severity,
          out.filter (fun a => a.severity = s) =
            g.concatAll.filter (fun a => a.severity = s)) := by
  unfold getRecommendations at h
  cases hg : evalCards board now (allCards board) {} with
  | error e => rw [hg] at h; exact absurd h (by simp)
  | ok g =>
  rw [hg] at h
  cases h
  constructor
  · intro i j hi hj hlt
    have hpw : (g.concatAll.mergeSort sevLe).Pairwise (fun a b => sevLe a b = true) :=
      List.sorted_mergeSort (fun a b c => sevLe_trans a b c)
        (fun a b => sevLe_total a b) g.concatAll
    rw [List.pairwise_iff_getElem] at hpw
    rcases Nat.lt_trichotomy i j with hij | hij | hij
    · exact hij
    · subst hij
      simp only [List.get_eq_getElem] at hlt
      omega
    · have := hpw j i hj hi hij
      simp only [sevLe, decide_eq_true_eq] at this
      simp only [List.get_eq_getElem] at hlt
      omega
  · refine ⟨g, rfl, ?_⟩
    intro s
    have hperm : List.Perm (g.concatAll.mergeSort sevLe) g.concatAll :=
      List.mergeSort_perm g.concatAll sevLe
    have hlen : ((g.concatAll.mergeSort sevLe).filter (fun a => a.severity = s)).length
        = (g.concatAll.filter (fun a => a.severity = s)).length :=
      (hperm.filter (fun a => a.severity = s)).length_eq
    have hpwf : List.Pairwise (fun a b => sevLe a b = true)
        (g.concatAll.filter (fun a => a.severity = s)) := by
      apply List.pairwise_of_forall_mem_list
      intro a ha b hb
      have ha2 := of_decide_eq_true (List.mem_filter.mp ha).2
      have hb2 := of_decide_eq_true (List.mem_filter.mp hb).2
      simp [sevLe, ha2, hb2]
    have hsub : List.Sublist (g.concatAll.filter (fun a => a.severity = s))
        (g.concatAll.mergeSort sevLe) :=
      List.sublist_mergeSort (fun a b c => sevLe_trans a b c)
        (fun a b => sevLe_total a b) hpwf (List.filter_sublist g.concatAll)
    have hsubf : List.Sublist (g.concatAll.filter (fun a => a.severity = s))
        ((g.concatAll.mergeSort sevLe).filter (fun a => a.severity = s)) := by
      have h2 := hsub.filter (fun a => a.severity = s)
      rw [List.filter_filter] at h2
      simpa using h2
    exact (hsubf.eq_of_length hlen.symm).symm

/-- Witness for C1 on the two-advisory fixture board. -/
theorem recommendations_ranking_witness :
    (∀ (i j : Nat) (hi : i < [advC3crit, advC3].length)
        (hj : j < [advC3crit, advC3].length),
        (([advC3crit, advC3]).get ⟨j, hj⟩).severity.score <
          (([advC3crit, advC3]).get ⟨i, hi⟩).severity.score → i < j) ∧
    (∃ g, evalCards boardC3w 0 (allCards boardC3w) {} = Except.ok g ∧
        ∀ s : Severity,
          ([advC3crit, advC3]).filter (fun a => a.severity = s) =
            g.concatAll.filter (fun a => a.severity = s)) :=
  recommendations_ranking boardC3w 0 [advC3crit, advC3] (by
    have h : getRecommendations boardC3w 0 =
        Except.ok ([advC3crit, advC3].mergeSort sevLe) := rfl
    rw [List.mergeSort_of_sorted (by decide)] at h
    exact h)

end Trello
